import Mathlib

/-!
Verification development for the static-CSV importer
(`sbstudio/plugin/operators/add_markers_from_static_csv.py`).

The core under verification is `parse_static_csv_zip`: it reads the file's
lines, splits each line with `csv.reader` (comma delimiter, default dialect),
skips blank rows, skips the first non-blank row when its first field
lowercased starts with `"name"`, coerces fields 1-3 with Python `float` and
fields 4-6 with Python `int` (defaulting the color to (255, 255, 255) when a
row has at most 4 fields), rejects duplicate names, and returns an
insertion-ordered dictionary from name to `ImportedData`.

Modelling conventions:
  * Python's insertion-ordered `dict` is embedded as an association list
    `List (String × ImportedData)`; `name in result` becomes a key search.
  * Python `float` values are carried exactly (`PyFloat` keeps the decimal
    value as a rational, plus infinities and nan); no arithmetic is ever
    performed on them by the program, so rounding to binary floating point
    is irrelevant to every property proved here.
  * Exceptions become `Except ParseError`; the two `RuntimeError` f-strings
    are reproduced by `errorMessage`.
  * Text is modelled at ASCII fidelity (the `lower`, `strip`, digit and
    whitespace behaviour of Python on ASCII input).
-/

deriving instance DecidableEq for Except

/-- The double-quote character, `csv.reader`'s default `quotechar`. -/
def quoteChar : Char := Char.ofNat 34

/-- The single-quote character, used by Python `repr` of a string. -/
def singleQuoteChar : Char := Char.ofNat 39

/-- The backslash character, used by Python `repr` escaping. -/
def backslashChar : Char := Char.ofNat 92

/-- The comma, the delimiter passed to `csv.reader`. -/
def commaChar : Char := Char.ofNat 44

/-- The underscore, allowed between digits by Python numeric conversion. -/
def underscoreChar : Char := Char.ofNat 95

/-- The decimal point. -/
def dotChar : Char := Char.ofNat 46

/-- The plus sign. -/
def plusChar : Char := Char.ofNat 43

/-- The minus sign. -/
def minusChar : Char := Char.ofNat 45

/-- The ASCII whitespace characters stripped by Python's `float`/`int`
conversion from `str` (space, tab, newline, carriage return, vertical tab,
form feed). -/
def pyWhitespace : List Char :=
  [Char.ofNat 32, Char.ofNat 9, Char.ofNat 10, Char.ofNat 13,
   Char.ofNat 11, Char.ofNat 12]

/-- Strip leading and trailing Python whitespace from a character list,
as `float(s)` / `int(s)` do before reading the number. -/
def stripChars (cs : List Char) : List Char :=
  ((cs.dropWhile (fun c => pyWhitespace.contains c)).reverse.dropWhile
    (fun c => pyWhitespace.contains c)).reverse

/-- ASCII lowercase of one character, the ASCII fragment of `str.lower`. -/
def lowerChar (c : Char) : Char :=
  if 65 ≤ c.toNat ∧ c.toNat ≤ 90 then Char.ofNat (c.toNat + 32) else c

/-- ASCII lowercase of a whole character list. -/
def lowerList (cs : List Char) : List Char := cs.map lowerChar

/-- The header heuristic `row[0].lower().startswith("name")` of the
source (ASCII fragment of `str.lower`). -/
def startsWithName (s : String) : Bool :=
  "name".data.isPrefixOf (lowerList s.data)

/-- Read an optional sign, as Python numeric conversion does; returns
`(negative, rest)`. -/
def parseSign : List Char → Bool × List Char
  | [] => (false, [])
  | c :: rest =>
    if c = minusChar then (true, rest)
    else if c = plusChar then (false, rest)
    else (false, c :: rest)

/-- Read a maximal run of decimal digits in which single underscores may
appear between digits (PEP 515, honoured by `float` and `int`).  The flag
records that the previous character was an underscore, which must be
followed by a digit.  Returns the digits (underscores removed) and the
unread rest, or `none` on a misplaced underscore. -/
def readDigitsAux (acc : List Char) : List Char → Bool → Option (List Char × List Char)
  | [], sawUnderscore => if sawUnderscore then none else some (acc, [])
  | c :: rest, sawUnderscore =>
    if c.isDigit then readDigitsAux (acc ++ [c]) rest false
    else if sawUnderscore then none
    else if c = underscoreChar then readDigitsAux acc rest true
    else some (acc, c :: rest)

/-- Read a digit run that must start with a digit (not an underscore). -/
def readDigits : List Char → Option (List Char × List Char)
  | [] => none
  | c :: rest => if c.isDigit then readDigitsAux [c] rest false else none

/-- Numeric value of a digit list. -/
def digitsToNat (ds : List Char) : ℕ :=
  ds.foldl (fun a c => a * 10 + (c.toNat - 48)) 0

/-- The value a Python `float` coercion yields: a finite value (kept as an
exact rational — the program performs no arithmetic on it), a signed
infinity, or nan. -/
inductive PyFloat where
  | finite : ℚ → PyFloat
  | inf : Bool → PyFloat
  | nan : PyFloat
deriving DecidableEq, Repr

/-- Assemble the finite value `±(ints.fracs) × 10^(±exp)` as an exact
rational (`mkRat` normalises the fraction). -/
def pyFinite (neg : Bool) (ints fracs : List Char) (eNeg : Bool)
    (eDs : List Char) : PyFloat :=
  let mantNat : ℕ := digitsToNat ints * 10 ^ fracs.length + digitsToNat fracs
  let mant : ℤ := if neg then -(mantNat : ℤ) else (mantNat : ℤ)
  let e := digitsToNat eDs
  PyFloat.finite
    (if eNeg then mkRat mant (10 ^ (fracs.length + e))
     else mkRat (mant * (10 : ℤ) ^ e) (10 ^ fracs.length))

/-- Read the optional exponent part (`e`/`E`, optional sign, digit run with
underscores) which must consume the whole rest of the literal. -/
def pyFloatExp (neg : Bool) (ints fracs : List Char) :
    List Char → Option PyFloat
  | [] => some (pyFinite neg ints fracs false [])
  | c :: rest =>
    if lowerChar c = Char.ofNat 101 then
      let (eNeg, rest2) := parseSign rest
      match readDigits rest2 with
      | some (eDs, []) => some (pyFinite neg ints fracs eNeg eDs)
      | _ => none
    else none

/-- Read the part after the integer digits: optional fraction, then the
exponent part. -/
def pyFloatFrac (neg : Bool) (ints : List Char) :
    List Char → Option PyFloat
  | [] => some (pyFinite neg ints [] false [])
  | c :: rest =>
    if c = dotChar then
      match rest with
      | c2 :: _ =>
        if c2.isDigit then
          match readDigits rest with
          | some (fracs, rest2) => pyFloatExp neg ints fracs rest2
          | none => none
        else pyFloatExp neg ints [] rest
      | [] => some (pyFinite neg ints [] false [])
    else pyFloatExp neg ints [] (c :: rest)

/-- Read a numeric `float` literal (after sign stripping): either it starts
with a digit (`digits [. [digits]] [exp]`) or with a dot (`. digits [exp]`). -/
def pyFloatNumeric (neg : Bool) : List Char → Option PyFloat
  | [] => none
  | c :: rest =>
    if c.isDigit then
      match readDigits (c :: rest) with
      | some (ints, rest2) => pyFloatFrac neg ints rest2
      | none => none
    else if c = dotChar then
      match rest with
      | c2 :: _ =>
        if c2.isDigit then
          match readDigits rest with
          | some (fracs, rest2) => pyFloatExp neg [] fracs rest2
          | none => none
        else none
      | [] => none
    else none

/-- Python `float(s)` on a field string: strip whitespace, read an optional
sign, then `inf`/`infinity`/`nan` (case-insensitively) or a numeric literal;
`none` models the `ValueError` that aborts the row. -/
def pyFloat? (s : String) : Option PyFloat :=
  let cs := stripChars s.data
  let (neg, cs2) := parseSign cs
  if lowerList cs2 = "inf".data ∨ lowerList cs2 = "infinity".data then
    some (PyFloat.inf neg)
  else if lowerList cs2 = "nan".data then some PyFloat.nan
  else pyFloatNumeric neg cs2

/-- Python `int(s)` on a field string: strip whitespace, read an optional
sign, then a digit run (underscores allowed) consuming the whole string;
`none` models the `ValueError` that aborts the row. -/
def pyInt? (s : String) : Option ℤ :=
  let cs := stripChars s.data
  let (neg, cs2) := parseSign cs
  match readDigits cs2 with
  | some (ds, []) =>
    some (if neg then -((digitsToNat ds : ℤ)) else ((digitsToNat ds : ℤ)))
  | _ => none

/-- One state of `csv.reader`'s field scanner (default dialect:
`delimiter=","`, `quotechar='"'`, `doublequote=True`, no escape char,
`skipinitialspace=False`, non-strict). -/
inductive CsvMode where
  | startField
  | inField
  | inQuoted
  | quoteInQuoted
deriving DecidableEq

/-- The field scanner of `csv.reader` on one record, at the default
dialect.  `cur` is the field accumulated so far.  End of line closes the
current field (this models single-line records; a quoted field containing
a line break, which `csv.reader` would continue on the next line, does not
occur in this format). -/
def csvAux : CsvMode → List Char → List Char → List String
  | _, [], cur => [String.mk cur]
  | CsvMode.startField, c :: rest, cur =>
    if c = quoteChar then csvAux CsvMode.inQuoted rest cur
    else if c = commaChar then String.mk cur :: csvAux CsvMode.startField rest []
    else csvAux CsvMode.inField rest (cur ++ [c])
  | CsvMode.inField, c :: rest, cur =>
    if c = commaChar then String.mk cur :: csvAux CsvMode.startField rest []
    else csvAux CsvMode.inField rest (cur ++ [c])
  | CsvMode.inQuoted, c :: rest, cur =>
    if c = quoteChar then csvAux CsvMode.quoteInQuoted rest cur
    else csvAux CsvMode.inQuoted rest (cur ++ [c])
  | CsvMode.quoteInQuoted, c :: rest, cur =>
    if c = quoteChar then csvAux CsvMode.inQuoted rest (cur ++ [c])
    else if c = commaChar then String.mk cur :: csvAux CsvMode.startField rest []
    else csvAux CsvMode.inField rest (cur ++ [c])

/-- The split `csv.reader` performs on one line (line terminator already removed):
an empty line yields the empty row, which the parser then skips. -/
def csvSplitLine (line : String) : List String :=
  if line.data = [] then [] else csvAux CsvMode.startField line.data []

/-- The `Point3D(x, y, z)` value of `sbstudio.model.point` as the importer uses it:
a triple of coerced coordinate values. -/
structure Point3D where
  x : PyFloat
  y : PyFloat
  z : PyFloat
deriving DecidableEq, Repr

/-- The `Color3D(r, g, b)` value of `sbstudio.model.color` as the importer uses it:
a triple of coerced integer channels. -/
structure Color3D where
  r : ℤ
  g : ℤ
  b : ℤ
deriving DecidableEq, Repr

/-- The `ImportedData` dataclass of the source: one parsed entry. -/
structure ImportedData where
  position : Point3D
  color : Color3D
deriving DecidableEq, Repr

/-- The two `RuntimeError`s `parse_static_csv_zip` can raise, carrying the
data interpolated into their messages. -/
inductive ParseError where
  | invalidContent : String → List String → ParseError
  | duplicateName : String → ParseError
deriving DecidableEq, Repr

/-- Python `repr` escaping of one character list at quote character `q`
(backslashes and the chosen quote are escaped; non-printable characters,
absent from this format, are not modelled). -/
def pyReprEscape (q : Char) : List Char → List Char
  | [] => []
  | c :: rest =>
    if c = backslashChar ∨ c = q then backslashChar :: c :: pyReprEscape q rest
    else c :: pyReprEscape q rest

/-- Python `repr` of a string: single-quoted, unless the string contains a
single quote and no double quote. -/
def pyRepr (s : String) : String :=
  let q := if s.data.contains singleQuoteChar ∧ ¬s.data.contains quoteChar
    then quoteChar else singleQuoteChar
  String.mk (q :: pyReprEscape q s.data ++ [q])

/-- Python `repr` of a list of strings, as `{row!r}` renders the offending
row. -/
def rowRepr (row : List String) : String :=
  "[" ++ String.intercalate ", " (row.map pyRepr) ++ "]"

/-- The message of each `RuntimeError`, mirroring the two f-strings of the
source. -/
def errorMessage : ParseError → String
  | ParseError.invalidContent filename row =>
    "Invalid content in input CSV file " ++ pyRepr filename ++ ", row "
      ++ rowRepr row
  | ParseError.duplicateName name =>
    "Duplicate object name in input CSV file: " ++ name

/-- The `try` block of the source on one row: `name = row[0]`,
`x, y, z = (float(value) for value in row[1:4])`, and
`r, g, b = (int(value) for value in row[4:7])` when `len(row) > 4`, else
the white default.  `none` models any exception in the block. -/
def parseDataRow (row : List String) : Option ImportedData :=
  match (row.drop 1).take 3 with
  | [sx, sy, sz] =>
    match pyFloat? sx, pyFloat? sy, pyFloat? sz with
    | some x, some y, some z =>
      if row.length > 4 then
        match (row.drop 4).take 3 with
        | [sr, sg, sb] =>
          match pyInt? sr, pyInt? sg, pyInt? sb with
          | some r, some g, some b =>
            some ⟨⟨x, y, z⟩, ⟨r, g, b⟩⟩
          | _, _, _ => none
        | _ => none
      else some ⟨⟨x, y, z⟩, ⟨255, 255, 255⟩⟩
    | _, _, _ => none
  | _ => none

/-- The row loop of `parse_static_csv_zip`.  The insertion-ordered `dict`
`result` is an association list; `headerPassed` is the flag set on the
first non-blank row.  Blank rows are skipped; the first non-blank row is
skipped when its first field lowercased starts with `"name"`; a coercion
failure raises `invalidContent`; a repeated name raises `duplicateName`;
otherwise the entry is appended. -/
def parseRowsGo (fn : String) :
    List (List String) → Bool → List (String × ImportedData) →
    Except ParseError (List (String × ImportedData))
  | [], _, result => Except.ok result
  | row :: rest, headerPassed, result =>
    if row.isEmpty then parseRowsGo fn rest headerPassed result
    else if !headerPassed && startsWithName row.headI then
      parseRowsGo fn rest true result
    else
      match parseDataRow row with
      | none => Except.error (ParseError.invalidContent fn row)
      | some data =>
        if result.any (fun p => p.1 = row.headI) then
          Except.error (ParseError.duplicateName row.headI)
        else parseRowsGo fn rest true (result ++ [(row.headI, data)])

/-- The body of `parse_static_csv_zip` after `csv.reader` has split the lines. -/
def parseRows (fn : String) (rows : List (List String)) :
    Except ParseError (List (String × ImportedData)) :=
  parseRowsGo fn rows false []

/-- The whole of `parse_static_csv_zip(filename, context)` on the file's lines (line
terminators removed, as `csv.reader` strips them). -/
def parseStaticCsvZip (fn : String) (lines : List String) :
    Except ParseError (List (String × ImportedData)) :=
  parseRows fn (lines.map csvSplitLine)

/-- Modelled from the spec: `Point3D.as_vector` of `sbstudio.model.point`
is not under `src/`; the spec describes the caller as handing "a list of 3D
positions" to the formation API, so the vector is the coordinate triple. -/
def Point3D.as_vector (p : Point3D) : List PyFloat := [p.x, p.y, p.z]

/-- Modelled from the spec: `Color3D.as_vector` of `sbstudio.model.color`
is not under `src/`; the spec describes the pixel buffer as "RGB triples
concatenated in entry-order", so the vector is the channel triple. -/
def Color3D.as_vector (c : Color3D) : List ℤ := [c.r, c.g, c.b]

/-- The expression `imported_data.values()`: the values of the insertion-ordered dict in
key-insertion order. -/
def valuesOf (entries : List (String × ImportedData)) : List ImportedData :=
  entries.map Prod.snd

/-- The list `points = [item.position.as_vector() for item in imported_data.values()]`
in `execute_on_formation`. -/
def formationPoints (entries : List (String × ImportedData)) : List (List PyFloat) :=
  (valuesOf entries).map (fun item => item.position.as_vector)

/-- The sequence `colors = [item.color.as_vector() for item in imported_data.values()]`
followed by `list(chain(*colors))` in `execute_on_formation`: the flat
channel sequence written to the 1×N color image. -/
def lightEffectPixels (entries : List (String × ImportedData)) : List ℤ :=
  ((valuesOf entries).map (fun item => item.color.as_vector)).flatten

/-- The rows of the file that the loop accepts as data rows, given the
current header flag: blank rows are dropped, the first non-blank row is
dropped when the flag is still unset and its first field triggers the
header heuristic.  (This mirrors the loop's classification only; it is the
reference point for the insertion-order theorem.) -/
def acceptedFrom : Bool → List (List String) → List (List String)
  | _, [] => []
  | hp, row :: rest =>
    if row.isEmpty then acceptedFrom hp rest
    else if !hp && startsWithName row.headI then acceptedFrom true rest
    else row :: acceptedFrom true rest

/-- The data rows of a whole file (header flag initially unset). -/
def acceptedDataRows (rows : List (List String)) : List (List String) :=
  acceptedFrom false rows

/-- Per-row parse paired with the stored key (`row[0]`). -/
def parseNamedRow (row : List String) : Option (String × ImportedData) :=
  (parseDataRow row).map (fun d => (row.headI, d))

/-- All rows parsed independently, in order; `none` when any row fails. -/
def rowsEntries? : List (List String) → Option (List (String × ImportedData))
  | [] => some []
  | row :: rest =>
    match parseNamedRow row, rowsEntries? rest with
    | some e, some es => some (e :: es)
    | _, _ => none

/-- Modelled from the spec: the spec's reading of tokenisation, "each
non-empty line is split on the comma delimiter" — a plain comma split with
no quote handling and no trimming, the comparison point for the amended
tokenisation claim. -/
def splitOnCommaAux : List Char → List Char → List String
  | [], cur => [String.mk cur]
  | c :: rest, cur =>
    if c = commaChar then String.mk cur :: splitOnCommaAux rest []
    else splitOnCommaAux rest (cur ++ [c])

/-- Modelled from the spec: comma split of a whole line (empty line gives
the empty row, as `csv.reader` does). -/
def splitOnComma (line : String) : List String :=
  if line.data = [] then [] else splitOnCommaAux line.data []

theorem parseRowsGo_filter (fn : String) (rows : List (List String)) :
    ∀ (hp : Bool) (acc : List (String × ImportedData)),
    parseRowsGo fn rows hp acc =
      parseRowsGo fn (rows.filter (fun r => !r.isEmpty)) hp acc := by
  induction rows with
  | nil => intro hp acc; rfl
  | cons row rest ih =>
    intro hp acc
    by_cases hb : row.isEmpty
    · simpa [parseRowsGo, hb, List.filter_cons] using ih hp acc
    · have hb' : row.isEmpty = false := by
        exact Bool.not_eq_true _ ▸ (by simpa using hb)
      simp only [List.filter_cons, hb', Bool.not_false, if_pos]
      simp only [parseRowsGo, hb', Bool.false_eq_true, if_false]
      by_cases hh : (!hp && startsWithName row.headI) = true
      · simp [hh, ih]
      · have hh' : (!hp && startsWithName row.headI) = false :=
          Bool.not_eq_true _ ▸ (by simpa using hh)
        simp only [hh', Bool.false_eq_true, if_false]
        cases hpd : parseDataRow row with
        | none => rfl
        | some d =>
          by_cases hdup : (acc.any (fun p => p.1 = row.headI)) = true
          · simp [hdup]
          · have hdup' : (acc.any (fun p => p.1 = row.headI)) = false :=
              Bool.not_eq_true _ ▸ (by simpa using hdup)
            simp [hdup', ih]

theorem parseRowsGo_all_blank (fn : String) (rows : List (List String)) :
    ∀ (hp : Bool) (acc : List (String × ImportedData)),
    rows.any (fun r => !r.isEmpty) = false →
    parseRowsGo fn rows hp acc = Except.ok acc := by
  induction rows with
  | nil => intro hp acc _; rfl
  | cons row rest ih =>
    intro hp acc h
    simp only [List.any_cons, Bool.or_eq_false_iff] at h
    have hb : row.isEmpty = true := by
      cases hbe : row.isEmpty
      · rw [hbe] at h; simp at h
      · rfl
    simp only [parseRowsGo, hb, if_pos]
    exact ih hp acc h.2

theorem parseRowsGo_append_ok (fn : String) (pre : List (List String)) :
    ∀ (rest : List (List String)) (hp : Bool)
      (acc acc2 : List (String × ImportedData)),
    parseRowsGo fn pre hp acc = Except.ok acc2 →
    parseRowsGo fn (pre ++ rest) hp acc =
      parseRowsGo fn rest (hp || pre.any (fun r => !r.isEmpty)) acc2 := by
  induction pre with
  | nil =>
    intro rest hp acc acc2 h
    simp only [parseRowsGo, Except.ok.injEq] at h
    subst h
    simp
  | cons row pre2 ih =>
    intro rest hp acc acc2 h
    rw [List.cons_append]
    by_cases hb : row.isEmpty = true
    · simp only [parseRowsGo, hb, if_true] at h ⊢
      rw [ih rest hp acc acc2 h]
      simp [hb]
    · have hb' : row.isEmpty = false := by simpa using hb
      simp only [parseRowsGo, hb', Bool.false_eq_true, if_false] at h ⊢
      by_cases hh : (!hp && startsWithName row.headI) = true
      · have hp0 : hp = false := by
          cases hhp : hp
          · rfl
          · rw [hhp] at hh; simp at hh
        subst hp0
        simp only [hh, if_true] at h ⊢
        rw [ih rest true acc acc2 h]
        simp [hb']
      · have hh' : (!hp && startsWithName row.headI) = false := by simpa using hh
        simp only [hh', Bool.false_eq_true, if_false] at h ⊢
        cases hpd : parseDataRow row with
        | none => rw [hpd] at h; simp at h
        | some d =>
          rw [hpd] at h
          by_cases hdup : (acc.any fun p => p.1 = row.headI) = true
          · simp [hdup] at h
          · simp [hdup] at h ⊢
            have h3 := ih rest true (acc ++ [(row.headI, d)]) acc2 h
            simp only [Bool.true_or] at h3
            rw [h3]
            simp [hb']

theorem parseRowsGo_append_error (fn : String) (pre : List (List String)) :
    ∀ (rest : List (List String)) (hp : Bool)
      (acc : List (String × ImportedData)) (e : ParseError),
    parseRowsGo fn pre hp acc = Except.error e →
    parseRowsGo fn (pre ++ rest) hp acc = Except.error e := by
  induction pre with
  | nil => intro rest hp acc e h; simp [parseRowsGo] at h
  | cons row pre2 ih =>
    intro rest hp acc e h
    rw [List.cons_append]
    by_cases hb : row.isEmpty = true
    · simp only [parseRowsGo, hb, if_true] at h ⊢
      exact ih rest hp acc e h
    · have hb' : row.isEmpty = false := by simpa using hb
      simp only [parseRowsGo, hb', Bool.false_eq_true, if_false] at h ⊢
      by_cases hh : (!hp && startsWithName row.headI) = true
      · simp only [hh, if_true] at h ⊢
        exact ih rest true acc e h
      · have hh' : (!hp && startsWithName row.headI) = false := by simpa using hh
        simp only [hh', Bool.false_eq_true, if_false] at h ⊢
        cases hpd : parseDataRow row with
        | none => rw [hpd] at h; exact h
        | some d =>
          rw [hpd] at h
          by_cases hdup : (acc.any fun p => p.1 = row.headI) = true
          · simp [hdup] at h ⊢
            exact h
          · simp [hdup] at h ⊢
            exact ih rest true (acc ++ [(row.headI, d)]) e h

theorem rowsEntries?_length (rows : List (List String)) :
    ∀ (entries : List (String × ImportedData)),
    rowsEntries? rows = some entries → entries.length = rows.length := by
  induction rows with
  | nil =>
    intro entries h
    simp only [rowsEntries?, Option.some.injEq] at h
    subst h; rfl
  | cons row rest ih =>
    intro entries h
    simp only [rowsEntries?] at h
    cases hpn : parseNamedRow row with
    | none => rw [hpn] at h; simp at h
    | some e =>
      rw [hpn] at h
      cases hre : rowsEntries? rest with
      | none => rw [hre] at h; simp at h
      | some es =>
        rw [hre] at h
        simp only [Option.some.injEq] at h
        subst h
        simp [ih es hre]

theorem parseRowsGo_ok_of_valid (fn : String) (rows : List (List String)) :
    ∀ (hp : Bool) (acc entries : List (String × ImportedData)),
    (∀ r ∈ rows, r.isEmpty = false) →
    (hp = false → ∀ r rest2, rows = r :: rest2 → startsWithName r.headI = false) →
    rowsEntries? rows = some entries →
    ((acc ++ entries).map Prod.fst).Nodup →
    parseRowsGo fn rows hp acc = Except.ok (acc ++ entries) := by
  induction rows with
  | nil =>
    intro hp acc entries _ _ hre _
    simp only [rowsEntries?, Option.some.injEq] at hre
    subst hre
    simp [parseRowsGo]
  | cons row rest ih =>
    intro hp acc entries hblank hhdr hre hnodup
    have hb' : row.isEmpty = false := hblank row (by simp)
    simp only [rowsEntries?] at hre
    cases hpn : parseNamedRow row with
    | none => rw [hpn] at hre; simp at hre
    | some e =>
      obtain ⟨n, dv⟩ := e
      rw [hpn] at hre
      cases hres : rowsEntries? rest with
      | none => rw [hres] at hre; simp at hre
      | some es =>
        rw [hres] at hre
        simp only [Option.some.injEq] at hre
        subst hre
        have hnd : n = row.headI ∧ parseDataRow row = some dv := by
          simp only [parseNamedRow] at hpn
          cases hpd : parseDataRow row with
          | none => rw [hpd] at hpn; simp at hpn
          | some d =>
            rw [hpd] at hpn
            simp at hpn
            obtain ⟨h1, h2⟩ := hpn
            exact ⟨h1.symm, by rw [h2]⟩
        obtain ⟨hname, hd⟩ := hnd
        subst hname
        have hh' : (!hp && startsWithName row.headI) = false := by
          cases hhp : hp
          · have := hhdr hhp row rest rfl
            simp [this]
          · simp
        have hnotmem : row.headI ∉ acc.map Prod.fst := by
          intro hmem
          rw [List.map_append] at hnodup
          have hdisj := (List.nodup_append.mp hnodup).2.2
          exact hdisj hmem (by simp)
        have hdup : (acc.any fun p => p.1 = row.headI) = false := by
          cases hany : (acc.any fun p => p.1 = row.headI)
          · rfl
          · exfalso
            rw [List.any_eq_true] at hany
            obtain ⟨p, hp1, hp2⟩ := hany
            simp only [decide_eq_true_eq] at hp2
            exact hnotmem (hp2 ▸ List.mem_map_of_mem Prod.fst hp1)
        simp only [parseRowsGo, hb', Bool.false_eq_true, if_false, hh', hd,
          hdup]
        have hrw : acc ++ (row.headI, dv) :: es = (acc ++ [(row.headI, dv)]) ++ es := by
          simp
        rw [hrw]
        exact ih true (acc ++ [(row.headI, dv)]) es
          (fun r hr => hblank r (by simp [hr]))
          (fun hfalse => by cases hfalse)
          hres
          (by rw [← hrw]; exact hnodup)

theorem parseRowsGo_ok_keys (fn : String) (rows : List (List String)) :
    ∀ (hp : Bool) (acc entries : List (String × ImportedData)),
    parseRowsGo fn rows hp acc = Except.ok entries →
    entries.map Prod.fst =
      acc.map Prod.fst ++ (acceptedFrom hp rows).map List.headI ∧
    ((acc.map Prod.fst).Nodup → (entries.map Prod.fst).Nodup) := by
  induction rows with
  | nil =>
    intro hp acc entries h
    simp only [parseRowsGo, Except.ok.injEq] at h
    subst h
    simp [acceptedFrom]
  | cons row rest ih =>
    intro hp acc entries h
    by_cases hb : row.isEmpty = true
    · simp only [parseRowsGo, hb, if_true] at h
      simpa [acceptedFrom, hb] using ih hp acc entries h
    · have hb' : row.isEmpty = false := by simpa using hb
      simp only [parseRowsGo, hb', Bool.false_eq_true, if_false] at h
      by_cases hh : (!hp && startsWithName row.headI) = true
      · simp only [hh, if_true] at h
        simpa [acceptedFrom, hb', hh] using ih true acc entries h
      · have hh' : (!hp && startsWithName row.headI) = false := by simpa using hh
        simp only [hh', Bool.false_eq_true, if_false] at h
        cases hpd : parseDataRow row with
        | none => rw [hpd] at h; simp at h
        | some d =>
          rw [hpd] at h
          by_cases hdup : (acc.any fun p => p.1 = row.headI) = true
          · rw [hdup] at h; simp at h
          · have hdup' : (acc.any fun p => p.1 = row.headI) = false := by
              cases hx : (acc.any fun p => p.1 = row.headI)
              · rfl
              · exact absurd hx hdup
            rw [hdup'] at h
            simp only [Bool.false_eq_true, if_false] at h
            have hmem : row.headI ∉ acc.map Prod.fst := by
              intro hm
              rw [List.mem_map] at hm
              obtain ⟨p, hp1, hp2⟩ := hm
              have : (acc.any fun p => p.1 = row.headI) = true :=
                List.any_eq_true.mpr ⟨p, hp1, by simp [hp2]⟩
              rw [this] at hdup'
              simp at hdup'
            obtain ⟨hkeys, hnd⟩ := ih true (acc ++ [(row.headI, d)]) entries h
            constructor
            · rw [hkeys]
              simp [acceptedFrom, hb', hh']
            · intro haccnd
              apply hnd
              rw [List.map_append]
              refine List.Nodup.append haccnd (by simp) ?_
              intro a ha hb2
              simp at hb2
              subst hb2
              exact hmem ha

theorem parseDataRow_eq_none (row : List String)
    (h : row.length < 4
      ∨ (∃ s ∈ (row.drop 1).take 3, pyFloat? s = none)
      ∨ (4 < row.length ∧
          (row.length < 7 ∨ ∃ s ∈ (row.drop 4).take 3, pyInt? s = none))) :
    parseDataRow row = none := by
  rw [List.drop_one] at h
  cases hs : row.tail.take 3 with
  | nil => simp [parseDataRow, hs]
  | cons a t1 =>
    cases t1 with
    | nil => simp [parseDataRow, hs]
    | cons b t2 =>
      cases t2 with
      | nil => simp [parseDataRow, hs]
      | cons c t3 =>
        cases t3 with
        | cons e t4 => simp [parseDataRow, hs]
        | nil =>
          have hlen : 4 ≤ row.length := by
            have := congrArg List.length hs
            simp [List.length_take, List.length_tail] at this
            omega
          cases hfa : pyFloat? a with
          | none => simp [parseDataRow, hs, hfa]
          | some x =>
            cases hfb : pyFloat? b with
            | none => simp [parseDataRow, hs, hfa, hfb]
            | some y =>
              cases hfc : pyFloat? c with
              | none => simp [parseDataRow, hs, hfa, hfb, hfc]
              | some z =>
                rcases h with h1 | h2 | h3
                · exfalso; omega
                · exfalso
                  rw [hs] at h2
                  obtain ⟨s, hsmem, hsnone⟩ := h2
                  simp at hsmem
                  rcases hsmem with rfl | rfl | rfl
                  · rw [hfa] at hsnone; cases hsnone
                  · rw [hfb] at hsnone; cases hsnone
                  · rw [hfc] at hsnone; cases hsnone
                · obtain ⟨h4, hcol⟩ := h3
                  cases hs2 : (row.drop 4).take 3 with
                  | nil => simp [parseDataRow, hs, hfa, hfb, hfc, h4, hs2]
                  | cons p t1b =>
                    cases t1b with
                    | nil => simp [parseDataRow, hs, hfa, hfb, hfc, h4, hs2]
                    | cons q t2b =>
                      cases t2b with
                      | nil => simp [parseDataRow, hs, hfa, hfb, hfc, h4, hs2]
                      | cons r3 t3b =>
                        cases t3b with
                        | cons e2 t4b =>
                          simp [parseDataRow, hs, hfa, hfb, hfc, h4, hs2]
                        | nil =>
                          have hlen7 : 7 ≤ row.length := by
                            have := congrArg List.length hs2
                            simp [List.length_take, List.length_drop] at this
                            omega
                          rcases hcol with h7 | hbad
                          · exfalso; omega
                          · cases hia : pyInt? p with
                            | none =>
                              simp [parseDataRow, hs, hfa, hfb, hfc, h4, hs2, hia]
                            | some v1 =>
                              cases hib : pyInt? q with
                              | none =>
                                simp [parseDataRow, hs, hfa, hfb, hfc, h4, hs2,
                                  hia, hib]
                              | some v2 =>
                                cases hic : pyInt? r3 with
                                | none =>
                                  simp [parseDataRow, hs, hfa, hfb, hfc, h4, hs2,
                                    hia, hib, hic]
                                | some v3 =>
                                  exfalso
                                  rw [hs2] at hbad
                                  obtain ⟨s, hsmem, hsnone⟩ := hbad
                                  simp at hsmem
                                  rcases hsmem with rfl | rfl | rfl
                                  · rw [hia] at hsnone; cases hsnone
                                  · rw [hib] at hsnone; cases hsnone
                                  · rw [hic] at hsnone; cases hsnone

theorem csvAux_no_quote (cs : List Char) :
    ∀ (cur : List Char), (∀ c ∈ cs, c ≠ quoteChar) →
    csvAux CsvMode.startField cs cur = splitOnCommaAux cs cur ∧
    csvAux CsvMode.inField cs cur = splitOnCommaAux cs cur := by
  induction cs with
  | nil => intro cur _; exact ⟨rfl, rfl⟩
  | cons c rest ih =>
    intro cur h
    have hc : c ≠ quoteChar := h c (by simp)
    have hrest : ∀ x ∈ rest, x ≠ quoteChar := fun x hx => h x (by simp [hx])
    have hcq : commaChar ≠ quoteChar := by decide
    by_cases hcm : c = commaChar
    · constructor <;>
        simp [csvAux, splitOnCommaAux, hc, hcm, hcq, (ih [] hrest).1]
    · constructor <;>
        simp [csvAux, splitOnCommaAux, hc, hcm, hcq, (ih (cur ++ [c]) hrest).2]

/-- C6: a data row with exactly 4 fields whose coordinates coerce stores
the default white color (255, 255, 255); a data row with 7 fields whose
coordinates and color channels coerce stores the integer triple coerced
from fields 4-6. -/
theorem C6_color_default_and_explicit (name sx sy sz sr sg sb : String)
    (x y z : PyFloat) (r g b : ℤ)
    (hx : pyFloat? sx = some x) (hy : pyFloat? sy = some y)
    (hz : pyFloat? sz = some z)
    (hr : pyInt? sr = some r) (hg : pyInt? sg = some g)
    (hb : pyInt? sb = some b) :
    parseDataRow [name, sx, sy, sz] =
      some ⟨⟨x, y, z⟩, ⟨255, 255, 255⟩⟩ ∧
    parseDataRow [name, sx, sy, sz, sr, sg, sb] =
      some ⟨⟨x, y, z⟩, ⟨r, g, b⟩⟩ := by
  constructor
  · simp [parseDataRow, hx, hy, hz]
  · simp [parseDataRow, hx, hy, hz, hr, hg, hb]

theorem C6_color_default_and_explicit_witness :
    parseDataRow ["P1", "1.0", "2.0", "3.0"] =
      some ⟨⟨PyFloat.finite 1, PyFloat.finite 2, PyFloat.finite 3⟩,
        ⟨255, 255, 255⟩⟩ ∧
    parseDataRow ["P1", "1.0", "2.0", "3.0", "10", "20", "30"] =
      some ⟨⟨PyFloat.finite 1, PyFloat.finite 2, PyFloat.finite 3⟩,
        ⟨10, 20, 30⟩⟩ :=
  C6_color_default_and_explicit "P1" "1.0" "2.0" "3.0" "10" "20" "30"
    (PyFloat.finite 1) (PyFloat.finite 2) (PyFloat.finite 3) 10 20 30
    (by decide) (by decide) (by decide) (by decide) (by decide) (by decide)

/-- C10: a data row with more than 7 fields whose first 7 fields form a
valid record is accepted with the position from fields 1-3 and the color
from fields 4-6; the extra fields are ignored — the row parses exactly as
its 7-field truncation does. -/
theorem C10_extra_fields_ignored (name sx sy sz sr sg sb : String)
    (extra : List String) (x y z : PyFloat) (r g b : ℤ)
    (_hextra : extra ≠ [])
    (hx : pyFloat? sx = some x) (hy : pyFloat? sy = some y)
    (hz : pyFloat? sz = some z)
    (hr : pyInt? sr = some r) (hg : pyInt? sg = some g)
    (hb : pyInt? sb = some b) :
    parseDataRow (name :: sx :: sy :: sz :: sr :: sg :: sb :: extra) =
      some ⟨⟨x, y, z⟩, ⟨r, g, b⟩⟩ ∧
    parseDataRow (name :: sx :: sy :: sz :: sr :: sg :: sb :: extra) =
      parseDataRow [name, sx, sy, sz, sr, sg, sb] := by
  have h4 : 4 < (name :: sx :: sy :: sz :: sr :: sg :: sb :: extra).length := by
    simp
  constructor
  · simp [parseDataRow, hx, hy, hz, hr, hg, hb, h4]
  · simp [parseDataRow, hx, hy, hz, hr, hg, hb, h4]

theorem C10_extra_fields_ignored_witness :
    parseDataRow ["P1", "1.0", "2.0", "3.0", "10", "20", "30", "junk"] =
      some ⟨⟨PyFloat.finite 1, PyFloat.finite 2, PyFloat.finite 3⟩,
        ⟨10, 20, 30⟩⟩ ∧
    parseDataRow ["P1", "1.0", "2.0", "3.0", "10", "20", "30", "junk"] =
      parseDataRow ["P1", "1.0", "2.0", "3.0", "10", "20", "30"] :=
  C10_extra_fields_ignored "P1" "1.0" "2.0" "3.0" "10" "20" "30" ["junk"]
    (PyFloat.finite 1) (PyFloat.finite 2) (PyFloat.finite 3) 10 20 30
    (by decide) (by decide) (by decide) (by decide) (by decide) (by decide)
    (by decide)

/-- C1: for a file whose non-blank rows all parse, have pairwise distinct
names, and whose first non-blank row does not look like a header, the parse
succeeds and returns exactly one entry per data row — keyed by the row's
first field, holding the coerced position and color of that row. -/
theorem C1_parse_round_trip (fn : String) (rows : List (List String))
    (entries : List (String × ImportedData))
    (hhdr : ∀ r ∈ (rows.filter (fun r => !r.isEmpty)).take 1,
      startsWithName r.headI = false)
    (hvalid : rowsEntries? (rows.filter (fun r => !r.isEmpty)) = some entries)
    (hnodup : (entries.map Prod.fst).Nodup) :
    parseRows fn rows = Except.ok entries ∧
    entries.length = (rows.filter (fun r => !r.isEmpty)).length := by
  refine ⟨?_, rowsEntries?_length _ _ hvalid⟩
  rw [parseRows, parseRowsGo_filter]
  have hmain := parseRowsGo_ok_of_valid fn
    (rows.filter (fun r => !r.isEmpty)) false [] entries
    (fun r hr => by
      have := List.mem_filter.mp hr
      simpa using this.2)
    (fun _ r rest2 heq => hhdr r (by rw [heq]; simp))
    hvalid
    (by simpa using hnodup)
  simpa using hmain

theorem C1_parse_round_trip_witness :
    parseRows "points.csv"
        [["P1", "1.0", "2.0", "3.0"],
         ["P2", "4.0", "5.0", "6.0", "10", "20", "30"]] =
      Except.ok
        [("P1", ⟨⟨PyFloat.finite 1, PyFloat.finite 2, PyFloat.finite 3⟩,
            ⟨255, 255, 255⟩⟩),
         ("P2", ⟨⟨PyFloat.finite 4, PyFloat.finite 5, PyFloat.finite 6⟩,
            ⟨10, 20, 30⟩⟩)] ∧
    (2 : ℕ) = 2 :=
  C1_parse_round_trip "points.csv"
    [["P1", "1.0", "2.0", "3.0"],
     ["P2", "4.0", "5.0", "6.0", "10", "20", "30"]]
    [("P1", ⟨⟨PyFloat.finite 1, PyFloat.finite 2, PyFloat.finite 3⟩,
        ⟨255, 255, 255⟩⟩),
     ("P2", ⟨⟨PyFloat.finite 4, PyFloat.finite 5, PyFloat.finite 6⟩,
        ⟨10, 20, 30⟩⟩)]
    (by decide) (by decide) (by decide)

/-- C2: the header heuristic applies only to the first non-blank line: it
is excluded from the result exactly when its first field lowercased starts
with "name" — whether or not the rest of the line would coerce — and a
later row whose first field starts with "name" is parsed as an ordinary
data row in either case. -/
theorem C2_header_first_line_only (fn : String) (r0 r1 : List String)
    (d1 : ImportedData)
    (h0 : r0 ≠ []) (h1 : r1 ≠ [])
    (hv1 : parseDataRow r1 = some d1)
    (hname1 : startsWithName r1.headI = true) :
    (startsWithName r0.headI = true →
      parseRows fn [r0, r1] = Except.ok [(r1.headI, d1)]) ∧
    (startsWithName r0.headI = false →
      ∀ d0, parseDataRow r0 = some d0 → r0.headI ≠ r1.headI →
      parseRows fn [r0, r1] = Except.ok [(r0.headI, d0), (r1.headI, d1)]) := by
  have hb0 : r0.isEmpty = false := by
    cases r0
    · exact absurd rfl h0
    · rfl
  have hb1 : r1.isEmpty = false := by
    cases r1
    · exact absurd rfl h1
    · rfl
  constructor
  · intro hs0
    simp [parseRows, parseRowsGo, hb0, hb1, hs0, hv1]
  · intro hs0 d0 hv0 hne
    simp [parseRows, parseRowsGo, hb0, hb1, hs0, hv0, hv1, hne]

theorem C2_header_first_line_only_witness :
    parseRows "f.csv" [["NAME", "X", "Y", "Z"],
        ["name2", "4.0", "5.0", "6.0"]] =
      Except.ok
        [("name2", ⟨⟨PyFloat.finite 4, PyFloat.finite 5, PyFloat.finite 6⟩,
            ⟨255, 255, 255⟩⟩)] ∧
    parseRows "f.csv" [["Node1", "1.0", "2.0", "3.0"],
        ["name2", "4.0", "5.0", "6.0"]] =
      Except.ok
        [("Node1", ⟨⟨PyFloat.finite 1, PyFloat.finite 2, PyFloat.finite 3⟩,
            ⟨255, 255, 255⟩⟩),
         ("name2", ⟨⟨PyFloat.finite 4, PyFloat.finite 5, PyFloat.finite 6⟩,
            ⟨255, 255, 255⟩⟩)] :=
  ⟨(C2_header_first_line_only "f.csv" ["NAME", "X", "Y", "Z"]
      ["name2", "4.0", "5.0", "6.0"]
      ⟨⟨PyFloat.finite 4, PyFloat.finite 5, PyFloat.finite 6⟩, ⟨255, 255, 255⟩⟩
      (by decide) (by decide) (by decide) (by decide)).1 (by decide),
   (C2_header_first_line_only "f.csv" ["Node1", "1.0", "2.0", "3.0"]
      ["name2", "4.0", "5.0", "6.0"]
      ⟨⟨PyFloat.finite 4, PyFloat.finite 5, PyFloat.finite 6⟩, ⟨255, 255, 255⟩⟩
      (by decide) (by decide) (by decide) (by decide)).2 (by decide)
      ⟨⟨PyFloat.finite 1, PyFloat.finite 2, PyFloat.finite 3⟩, ⟨255, 255, 255⟩⟩
      (by decide) (by decide)⟩

/-- C3: a data row whose name equals the key of an entry already inserted
from an earlier data row aborts the parse with a duplicate-name error
whose message contains the duplicate name; no mapping, partial or not, is
returned. -/
theorem C3_duplicate_name_error (fn : String) (pre post : List (List String))
    (r : List String) (entries : List (String × ImportedData))
    (d : ImportedData)
    (hpre : parseRows fn pre = Except.ok entries)
    (hr : r ≠ [])
    (hd : parseDataRow r = some d)
    (hdup : r.headI ∈ entries.map Prod.fst) :
    parseRows fn (pre ++ r :: post) =
      Except.error (ParseError.duplicateName r.headI) ∧
    (∃ s1 s2 : List Char,
      (errorMessage (ParseError.duplicateName r.headI)).data =
        s1 ++ r.headI.data ++ s2) ∧
    (∀ m, parseRows fn (pre ++ r :: post) ≠ Except.ok m) := by
  have hb : r.isEmpty = false := by
    cases r
    · exact absurd rfl hr
    · rfl
  rw [parseRows] at hpre
  have hany : pre.any (fun row => !row.isEmpty) = true := by
    cases hx : pre.any (fun row => !row.isEmpty)
    · exfalso
      rw [parseRowsGo_all_blank fn pre false [] hx] at hpre
      simp only [Except.ok.injEq] at hpre
      rw [← hpre] at hdup
      simp at hdup
    · rfl
  have hanyr : (entries.any fun p => p.1 = r.headI) = true := by
    obtain ⟨p, hp1, hp2⟩ := List.mem_map.mp hdup
    exact List.any_eq_true.mpr ⟨p, hp1, by simp [hp2]⟩
  have hmain : parseRows fn (pre ++ r :: post) =
      Except.error (ParseError.duplicateName r.headI) := by
    rw [parseRows,
      parseRowsGo_append_ok fn pre (r :: post) false [] entries hpre, hany]
    simp only [Bool.or_true, parseRowsGo, hb, Bool.false_eq_true, if_false,
      Bool.not_true, Bool.false_and]
    rw [hd]
    simp [hanyr]
  refine ⟨hmain, ⟨"Duplicate object name in input CSV file: ".data, [], ?_⟩, ?_⟩
  · simp [errorMessage, String.data_append]
  · intro m hm
    rw [hmain] at hm
    cases hm

theorem C3_duplicate_name_error_witness :
    parseRows "f.csv"
        ([["P1", "1.0", "2.0", "3.0"]] ++ ["P1", "4.0", "5.0", "6.0"] :: []) =
      Except.error (ParseError.duplicateName "P1") ∧
    (∃ s1 s2 : List Char,
      (errorMessage (ParseError.duplicateName "P1")).data =
        s1 ++ "P1".data ++ s2) ∧
    (∀ m, parseRows "f.csv"
        ([["P1", "1.0", "2.0", "3.0"]] ++ ["P1", "4.0", "5.0", "6.0"] :: []) ≠
      Except.ok m) :=
  C3_duplicate_name_error "f.csv" [["P1", "1.0", "2.0", "3.0"]] []
    ["P1", "4.0", "5.0", "6.0"]
    [("P1", ⟨⟨PyFloat.finite 1, PyFloat.finite 2, PyFloat.finite 3⟩,
        ⟨255, 255, 255⟩⟩)]
    ⟨⟨PyFloat.finite 4, PyFloat.finite 5, PyFloat.finite 6⟩, ⟨255, 255, 255⟩⟩
    (by decide) (by decide) (by decide) (by decide)

/-- C4: a data row on which field coercion fails — a missing coordinate
(fewer than 4 fields), a non-numeric coordinate in fields 1-3, or, when
the row has more than 4 fields, a missing or non-integer color channel in
fields 4-6 — aborts the whole parse with a content error whose message
contains the file path and the raw row; no partial mapping is returned. -/
theorem C4_coercion_failure_error (fn : String) (pre post : List (List String))
    (r : List String) (entries : List (String × ImportedData))
    (hpre : parseRows fn pre = Except.ok entries)
    (hr : r ≠ [])
    (hhdr : pre.any (fun row => !row.isEmpty) = true ∨
      startsWithName r.headI = false)
    (hfail : r.length < 4
      ∨ (∃ s ∈ (r.drop 1).take 3, pyFloat? s = none)
      ∨ (4 < r.length ∧
          (r.length < 7 ∨ ∃ s ∈ (r.drop 4).take 3, pyInt? s = none))) :
    parseRows fn (pre ++ r :: post) =
      Except.error (ParseError.invalidContent fn r) ∧
    (∃ s1 s2 : List Char,
      (errorMessage (ParseError.invalidContent fn r)).data =
        s1 ++ (pyRepr fn).data ++ s2) ∧
    (∃ s1 s2 : List Char,
      (errorMessage (ParseError.invalidContent fn r)).data =
        s1 ++ (rowRepr r).data ++ s2) ∧
    (∀ m, parseRows fn (pre ++ r :: post) ≠ Except.ok m) := by
  have hb : r.isEmpty = false := by
    cases r
    · exact absurd rfl hr
    · rfl
  have hnone : parseDataRow r = none := parseDataRow_eq_none r hfail
  rw [parseRows] at hpre
  have hmain : parseRows fn (pre ++ r :: post) =
      Except.error (ParseError.invalidContent fn r) := by
    rw [parseRows,
      parseRowsGo_append_ok fn pre (r :: post) false [] entries hpre]
    rcases hhdr with hany | hnostart
    · rw [hany]
      simp only [Bool.or_true, parseRowsGo, hb, Bool.false_eq_true, if_false,
        Bool.not_true, Bool.false_and]
      rw [hnone]
    · cases hx : pre.any (fun row => !row.isEmpty)
      · simp only [Bool.or_false, Bool.false_or, parseRowsGo, hb,
          Bool.false_eq_true, if_false, Bool.not_false, Bool.true_and,
          hnostart]
        rw [hnone]
      · simp only [Bool.or_true, Bool.false_or, parseRowsGo, hb,
          Bool.false_eq_true, if_false, Bool.not_true, Bool.false_and]
        rw [hnone]
  refine ⟨hmain,
    ⟨"Invalid content in input CSV file ".data,
     ", row ".data ++ (rowRepr r).data, ?_⟩,
    ⟨"Invalid content in input CSV file ".data ++ (pyRepr fn).data
       ++ ", row ".data, [], ?_⟩, ?_⟩
  · simp [errorMessage, String.data_append]
  · simp [errorMessage, String.data_append]
  · intro m hm
    rw [hmain] at hm
    cases hm

theorem C4_coercion_failure_error_witness :
    parseRows "f.csv" ([] ++ ["P1", "abc", "2.0", "3.0"] :: []) =
      Except.error
        (ParseError.invalidContent "f.csv" ["P1", "abc", "2.0", "3.0"]) ∧
    (∃ s1 s2 : List Char,
      (errorMessage
          (ParseError.invalidContent "f.csv" ["P1", "abc", "2.0", "3.0"])).data =
        s1 ++ (pyRepr "f.csv").data ++ s2) ∧
    (∃ s1 s2 : List Char,
      (errorMessage
          (ParseError.invalidContent "f.csv" ["P1", "abc", "2.0", "3.0"])).data =
        s1 ++ (rowRepr ["P1", "abc", "2.0", "3.0"]).data ++ s2) ∧
    (∀ m, parseRows "f.csv" ([] ++ ["P1", "abc", "2.0", "3.0"] :: []) ≠
      Except.ok m) :=
  C4_coercion_failure_error "f.csv" [] [] ["P1", "abc", "2.0", "3.0"] []
    (by decide) (by decide) (Or.inr (by decide))
    (Or.inr (Or.inl ⟨"abc", by decide, by decide⟩))

/-- C5: on every successful parse the mapping's keys are pairwise distinct
and appear in the order of their data rows in the file, and the caller's
point list and flat pixel sequence are derived by iterating the mapping's
values in that same insertion order. -/
theorem C5_insertion_order (fn : String) (rows : List (List String))
    (entries : List (String × ImportedData))
    (h : parseRows fn rows = Except.ok entries) :
    (entries.map Prod.fst).Nodup ∧
    entries.map Prod.fst = (acceptedDataRows rows).map List.headI ∧
    formationPoints entries =
      entries.map (fun e =>
        [e.2.position.x, e.2.position.y, e.2.position.z]) ∧
    lightEffectPixels entries =
      entries.flatMap (fun e => [e.2.color.r, e.2.color.g, e.2.color.b]) := by
  rw [parseRows] at h
  obtain ⟨hkeys, hnd⟩ := parseRowsGo_ok_keys fn rows false [] entries h
  refine ⟨hnd (by simp), ?_, ?_, ?_⟩
  · simpa [acceptedDataRows] using hkeys
  · simp [formationPoints, valuesOf, Point3D.as_vector]
  · simp only [lightEffectPixels, valuesOf, Color3D.as_vector, List.flatMap,
      List.map_map]
    rfl

theorem C5_insertion_order_witness :
    (([("P1", ImportedData.mk
          ⟨PyFloat.finite 1, PyFloat.finite 2, PyFloat.finite 3⟩
          ⟨255, 255, 255⟩),
       ("P2", ImportedData.mk
          ⟨PyFloat.finite 4, PyFloat.finite 5, PyFloat.finite 6⟩
          ⟨10, 20, 30⟩)]).map Prod.fst).Nodup ∧
    ([("P1", ImportedData.mk
          ⟨PyFloat.finite 1, PyFloat.finite 2, PyFloat.finite 3⟩
          ⟨255, 255, 255⟩),
      ("P2", ImportedData.mk
          ⟨PyFloat.finite 4, PyFloat.finite 5, PyFloat.finite 6⟩
          ⟨10, 20, 30⟩)]).map Prod.fst =
      (acceptedDataRows [["P1", "1.0", "2.0", "3.0"], [],
        ["P2", "4.0", "5.0", "6.0", "10", "20", "30"]]).map List.headI ∧
    formationPoints
        [("P1", ImportedData.mk
            ⟨PyFloat.finite 1, PyFloat.finite 2, PyFloat.finite 3⟩
            ⟨255, 255, 255⟩),
         ("P2", ImportedData.mk
            ⟨PyFloat.finite 4, PyFloat.finite 5, PyFloat.finite 6⟩
            ⟨10, 20, 30⟩)] =
      [[PyFloat.finite 1, PyFloat.finite 2, PyFloat.finite 3],
       [PyFloat.finite 4, PyFloat.finite 5, PyFloat.finite 6]] ∧
    lightEffectPixels
        [("P1", ImportedData.mk
            ⟨PyFloat.finite 1, PyFloat.finite 2, PyFloat.finite 3⟩
            ⟨255, 255, 255⟩),
         ("P2", ImportedData.mk
            ⟨PyFloat.finite 4, PyFloat.finite 5, PyFloat.finite 6⟩
            ⟨10, 20, 30⟩)] =
      [255, 255, 255, 10, 20, 30] :=
  C5_insertion_order "f.csv"
    [["P1", "1.0", "2.0", "3.0"], [],
     ["P2", "4.0", "5.0", "6.0", "10", "20", "30"]]
    [("P1", ImportedData.mk
        ⟨PyFloat.finite 1, PyFloat.finite 2, PyFloat.finite 3⟩
        ⟨255, 255, 255⟩),
     ("P2", ImportedData.mk
        ⟨PyFloat.finite 4, PyFloat.finite 5, PyFloat.finite 6⟩
        ⟨10, 20, 30⟩)]
    (by decide)

/-- C7, counterexample: `csv.reader` at the default dialect does not trim
whitespace around the delimiter — the line `"P1 , 1.0,2.0,3.0"` parses
successfully and stores the key `"P1 "`, whose last character is a space,
refuting the claim that field tokens carry no surrounding whitespace. -/
theorem C7_counterexample :
    parseStaticCsvZip "file.csv" ["P1 , 1.0,2.0,3.0"] =
      Except.ok [("P1 ", ⟨⟨PyFloat.finite 1, PyFloat.finite 2, PyFloat.finite 3⟩,
        ⟨255, 255, 255⟩⟩)] ∧
    ("P1 " : String).data.getLast? = some (Char.ofNat 32) := by decide

/-- C7, amended: each non-empty line is split on the comma delimiter into
raw, untrimmed field tokens — on quote-free lines the `csv.reader` field
scanner agrees exactly with a plain comma split, preserving all
surrounding whitespace (numeric fields tolerate the whitespace only
because `float`/`int` strip it during coercion). -/
theorem C7_split_untrimmed (line : String)
    (hq : ∀ c ∈ line.data, c ≠ quoteChar) :
    csvSplitLine line = splitOnComma line := by
  rw [csvSplitLine, splitOnComma]
  cases hd : line.data with
  | nil => rfl
  | cons c rest =>
    rw [hd] at hq
    rw [if_neg (by simp), if_neg (by simp)]
    exact (csvAux_no_quote (c :: rest) [] hq).1

theorem C7_split_untrimmed_witness :
    csvSplitLine "P1 , 1.0" = splitOnComma "P1 , 1.0" ∧
    splitOnComma "P1 , 1.0" = ["P1 ", " 1.0"] :=
  ⟨C7_split_untrimmed "P1 , 1.0" (by decide), by decide⟩

/-- C8, counterexample: a first row whose first field is `"Name1"` does
trigger the header heuristic (`"name1".startswith("name")` is true), so it
is skipped and the parse of the one-row file returns the empty mapping
rather than a data entry. -/
theorem C8_counterexample :
    parseStaticCsvZip "f.csv" ["Name1,1.0,2.0,3.0"] = Except.ok [] ∧
    startsWithName "Name1" = true := by decide

/-- C8, amended: the first non-blank row is skipped as a header whenever
its first field, lowercased, merely begins with "name" — so "Name1" is
misclassified as a header too — while a first field that does not begin
with "name" (such as "Node1") is parsed as a data row. -/
theorem C8_header_startswith (fn : String) (r0 r1 : List String)
    (rest : List (List String)) (d1 : ImportedData)
    (h0 : r0 ≠ []) (hname : startsWithName r0.headI = true)
    (h1 : r1 ≠ []) (hnot : startsWithName r1.headI = false)
    (hv1 : parseDataRow r1 = some d1) :
    parseRows fn (r0 :: rest) = parseRowsGo fn rest true [] ∧
    parseRows fn (r1 :: rest) =
      parseRowsGo fn rest true [(r1.headI, d1)] := by
  have hb0 : r0.isEmpty = false := by
    cases r0
    · exact absurd rfl h0
    · rfl
  have hb1 : r1.isEmpty = false := by
    cases r1
    · exact absurd rfl h1
    · rfl
  constructor
  · simp [parseRows, parseRowsGo, hb0, hname]
  · simp [parseRows, parseRowsGo, hb1, hnot, hv1]

theorem C8_header_startswith_witness :
    parseRows "f.csv" [["Name1", "1.0", "2.0", "3.0"]] =
      parseRowsGo "f.csv" [] true [] ∧
    parseRows "f.csv" [["Node1", "1.0", "2.0", "3.0"]] =
      parseRowsGo "f.csv" [] true
        [("Node1", ⟨⟨PyFloat.finite 1, PyFloat.finite 2, PyFloat.finite 3⟩,
           ⟨255, 255, 255⟩⟩)] :=
  C8_header_startswith "f.csv" ["Name1", "1.0", "2.0", "3.0"]
    ["Node1", "1.0", "2.0", "3.0"] []
    ⟨⟨PyFloat.finite 1, PyFloat.finite 2, PyFloat.finite 3⟩, ⟨255, 255, 255⟩⟩
    (by decide) (by decide) (by decide) (by decide) (by decide)

/-- C9, counterexample: nothing rejects an empty name — a row whose first
field is empty parses successfully into an entry keyed by the empty
string, refuting the claim that every key of a successful parse is
non-empty. -/
theorem C9_counterexample :
    parseStaticCsvZip "f.csv" [",1.0,2.0,3.0"] =
      Except.ok [("", ⟨⟨PyFloat.finite 1, PyFloat.finite 2, PyFloat.finite 3⟩,
        ⟨255, 255, 255⟩⟩)] ∧
    ("" : String).length = 0 := by decide

/-- C9, amended: keys of a successful parse are unique but not necessarily
non-empty — a data row with an empty first field (and coercible
coordinates) is stored under the empty-string key. -/
theorem C9_empty_name_allowed (fn : String) (sx sy sz : String)
    (x y z : PyFloat)
    (hx : pyFloat? sx = some x) (hy : pyFloat? sy = some y)
    (hz : pyFloat? sz = some z) :
    parseRows fn [["", sx, sy, sz]] =
      Except.ok [("", ⟨⟨x, y, z⟩, ⟨255, 255, 255⟩⟩)] := by
  have hstart : startsWithName "" = false := by decide
  simp [parseRows, parseRowsGo, parseDataRow, hstart, hx, hy, hz]

theorem C9_empty_name_allowed_witness :
    parseRows "f.csv" [["", "1.0", "2.0", "3.0"]] =
      Except.ok [("", ⟨⟨PyFloat.finite 1, PyFloat.finite 2, PyFloat.finite 3⟩,
        ⟨255, 255, 255⟩⟩)] :=
  C9_empty_name_allowed "f.csv" "1.0" "2.0" "3.0"
    (PyFloat.finite 1) (PyFloat.finite 2) (PyFloat.finite 3)
    (by decide) (by decide) (by decide)
